import Mathlib

/-!
Shallow embedding of `src/script.py` (CardGrabber), a certificate scraper.

The script's observable behaviour is modelled as a pure computation over an
explicit environment describing what each page-fetch attempt and each debug
snapshot would do.  Side effects (sleeps, page opens, navigations, snapshot
attempts) are recorded in an event trace; Python exceptions that escape a
function are modelled with `Except`.  Durations are modelled as rationals
(Python floats are used by the script only to be multiplied and passed to
`asyncio.sleep`, so exact arithmetic is the faithful reading of the claims).
-/

namespace CardGrabber

/-- ASCII whitespace as recognised by Python's `str.split()` / `str.strip()`
(space, tab, newline, carriage return, vertical tab, form feed). -/
def pyIsSpace (c : Char) : Bool :=
  c == ' ' || c == '\t' || c == '\n' || c == '\r' ||
    c == Char.ofNat 11 || c == Char.ofNat 12

/-- Helper for `pyWords`: accumulates the current word (reversed) while
scanning; mirrors CPython's whitespace `str.split()` with no argument. -/
def pyWordsAux : List Char → List Char → List (List Char)
  | [], acc => if acc.isEmpty then [] else [acc.reverse]
  | c :: cs, acc =>
    if pyIsSpace c then
      if acc.isEmpty then pyWordsAux cs [] else acc.reverse :: pyWordsAux cs []
    else
      pyWordsAux cs (c :: acc)

/-- Python `s.split()`: maximal runs of non-whitespace characters. -/
def pyWords (l : List Char) : List (List Char) :=
  pyWordsAux l []

/-- Python `" ".join(ws)`: words joined by a single space character. -/
def joinSpace : List (List Char) → List Char
  | [] => []
  | [w] => w
  | w :: v :: ws => w ++ ' ' :: joinSpace (v :: ws)

/-- `" ".join(s.split())` from script.py line 62: the card-name
normalisation. -/
def pyCollapse (s : String) : String :=
  ⟨joinSpace (pyWords s.toList)⟩

/-- Python `s.strip()` on a character list: drop whitespace from both ends. -/
def pyStripList (l : List Char) : List Char :=
  ((l.dropWhile pyIsSpace).reverse.dropWhile pyIsSpace).reverse

/-- Python `s.strip()` (script.py lines 66 and 146). -/
def pyStrip (s : String) : String :=
  ⟨pyStripList s.toList⟩

/-- The certificate URL built at script.py line 45. -/
def certUrl (certificate_id : String) : String :=
  "https://acegrading.com/cert/" ++ certificate_id

/-- Observable events of a run, tagged by the program point that emits them.
`retrySleep` is the backoff sleep at line 52, `settleSleep` the fixed settling
sleeps (lines 56 and 89), `rateSleep` the rate-limiter sleep at line 110,
`snapshotCall` the invocation of `save_debug_snapshot` (line 79) with the
arguments it receives, `snapshotSaved` a successful write of the debug file
(line 92). -/
inductive Ev where
  | attemptStart (certificate_id : String) (attempt : ℕ)
  | pageOpen
  | retrySleep (d : ℚ)
  | navigate (url : String) (timeout : ℤ)
  | settleSleep (d : ℚ)
  | rateSleep (d : ℚ)
  | snapshotCall (certificate_id : String) (timeout : ℤ)
  | snapshotSaved (certificate_id : String)
  | pageClose
  deriving DecidableEq, Repr

/-- A Python exception escaping a modelled function; the string names the
operation that raised. -/
inductive PyExc where
  | exc (site : String)
  deriving DecidableEq, Repr

/-- What one fetch attempt of `fetch_certificate_data` does, as decided by
the outside world (network, browser).  `pageCreateRaises` models
`create_stealth_page` (line 48) raising — this happens before the `try`.
`gotoTimeout` / `gotoErr` model `page.goto` (line 55) raising a
`PlaywrightTimeoutError` / generic exception; `selectorTimeout` models
`wait_for_selector` (line 58) timing out after the page settled; `loaded`
models a fully loaded page whose two `text_content()` calls (lines 61, 65)
return the given values (`none` = Python `None`, which makes the subsequent
`.split()` / `.strip()` raise and be caught as a generic exception). -/
inductive AttemptSpec where
  | pageCreateRaises
  | gotoTimeout
  | gotoErr
  | selectorTimeout
  | loaded (nameRaw gradeRaw : Option String)
  deriving DecidableEq, Repr

/-- The attempt outcomes that the `except` clauses at lines 72–75 catch,
i.e. the `Failure` variants of the spec's `FetchOutcome`. -/
def AttemptSpec.caughtFail : AttemptSpec → Bool
  | .gotoTimeout => true
  | .gotoErr => true
  | .selectorTimeout => true
  | .loaded none _ => true
  | .loaded (some _) none => true
  | .loaded (some _) (some _) => false
  | .pageCreateRaises => false

/-- What one call of `save_debug_snapshot` does.  `pageCreateRaises` and
`makedirsRaises` model the two statements before its `try` block (lines
83, 85) raising; `bodyFails` models any exception inside the `try` (caught
at line 94 and swallowed); `bodyOk` a successful snapshot. -/
inductive SnapSpec where
  | pageCreateRaises
  | makedirsRaises
  | bodyFails
  | bodyOk
  deriving DecidableEq, Repr

/-- The environment driving one identifier's worker: the outcome of each
numbered fetch attempt, and the behaviour of the one possible snapshot. -/
structure FetchEnv where
  attempts : ℕ → AttemptSpec
  snap : SnapSpec

/-- The scalar configuration that `fetch_certificate_data` receives. -/
structure Cfg where
  timeout : ℤ
  retry_count : ℕ
  retry_delay : ℚ

/-- `save_debug_snapshot` (script.py lines 82–97).  Returns the event trace
and whether the debug file was written; `Except.error` models an exception
escaping to the caller (possible only from the statements before the
`try`). -/
def save_debug_snapshot (snap : SnapSpec) (certificate_id : String)
    (timeout : ℤ) : Except PyExc (List Ev × Bool) :=
  match snap with
  | .pageCreateRaises => .error (.exc "new_page")
  | .makedirsRaises => .error (.exc "makedirs")
  | .bodyFails =>
    .ok ([.snapshotCall certificate_id timeout, .pageOpen,
          .navigate (certUrl certificate_id) timeout, .pageClose], false)
  | .bodyOk =>
    .ok ([.snapshotCall certificate_id timeout, .pageOpen,
          .navigate (certUrl certificate_id) timeout, .settleSleep 2,
          .snapshotSaved certificate_id, .pageClose], true)

/-- The events of one attempt up to and including the backoff sleep: the
loop body opens a fresh page (line 48) and, for attempts after the first,
sleeps `retry_delay * attempt` (line 52). -/
def attemptPrefix (certificate_id : String) (cfg : Cfg) (attempt : ℕ) :
    List Ev :=
  [.attemptStart certificate_id attempt, .pageOpen] ++
    (if 1 < attempt then [Ev.retrySleep (cfg.retry_delay * attempt)] else [])

/-- The events of the caught-failure part of one attempt (after
`attemptPrefix`), per failure shape; ends with the `finally` close
(line 77). -/
def failEvents (certificate_id : String) (cfg : Cfg) :
    AttemptSpec → List Ev
  | .gotoTimeout => [.navigate (certUrl certificate_id) cfg.timeout, .pageClose]
  | .gotoErr => [.navigate (certUrl certificate_id) cfg.timeout, .pageClose]
  | .selectorTimeout =>
    [.navigate (certUrl certificate_id) cfg.timeout, .settleSleep (3/2),
     .pageClose]
  | .loaded _ _ =>
    [.navigate (certUrl certificate_id) cfg.timeout, .settleSleep (3/2),
     .pageClose]
  | .pageCreateRaises => []

/-- The retry loop of `fetch_certificate_data` (lines 47–80).  `attempt` is
the Python loop variable, `fuel` the number of iterations left
(`range(1, retry_count + 2)` performs `retry_count + 1` of them); when the
loop falls through, the snapshot is attempted and the sentinel triple is
returned (lines 79–80).  The payload is an `Option` triple because the
declared return type admits `None`. -/
def fetchLoop (fe : FetchEnv) (cfg : Cfg) (certificate_id : String) :
    ℕ → ℕ → Except PyExc (List Ev × Option (String × String × String))
  | _, 0 =>
    (save_debug_snapshot fe.snap certificate_id cfg.timeout).map
      (fun p => (p.1, some (certificate_id, "Error", "Error")))
  | attempt, fuel + 1 =>
    match fe.attempts attempt with
    | .pageCreateRaises => .error (.exc "new_page")
    | .loaded (some nameRaw) (some gradeRaw) =>
      .ok (attemptPrefix certificate_id cfg attempt ++
             [.navigate (certUrl certificate_id) cfg.timeout,
              .settleSleep (3/2), .pageClose, .pageClose],
           some (certificate_id, pyCollapse nameRaw, pyStrip gradeRaw))
    | spec =>
      (fetchLoop fe cfg certificate_id (attempt + 1) fuel).map
        (fun p =>
          (attemptPrefix certificate_id cfg attempt ++
             failEvents certificate_id cfg spec ++ p.1, p.2))

/-- `fetch_certificate_data` (script.py lines 38–80). -/
def fetch_certificate_data (fe : FetchEnv) (cfg : Cfg)
    (certificate_id : String) :
    Except PyExc (List Ev × Option (String × String × String)) :=
  fetchLoop fe cfg certificate_id 1 (cfg.retry_count + 1)

/-- The rate-limiter sleeps emitted by the loop at script.py lines 108–110:
one `asyncio.sleep(rate_limit)` before appending the coroutine for each item
of index `> 0`, but only when `rate_limit > 0`. -/
def paceEvents (rate_limit : ℚ) (n : ℕ) : List Ev :=
  (List.range n).filterMap
    (fun index =>
      if 0 < index ∧ 0 < rate_limit then some (Ev.rateSleep rate_limit)
      else none)

/-- The `asyncio.gather(*tasks)` at script.py line 118: run the fetch of
each identifier, returning the pairs (trace, result) in argument order and
propagating the first exception. -/
def gatherFetch (fenv : String → FetchEnv) (cfg : Cfg) :
    List String →
    Except PyExc (List (List Ev × Option (String × String × String)))
  | [] => .ok []
  | certificate_id :: rest => do
    let r ← fetch_certificate_data (fenv certificate_id) cfg certificate_id
    let rs ← gatherFetch fenv cfg rest
    return r :: rs

/-- `process_certificate_batch` (script.py lines 99–118).  The loop only
*creates* the fetch coroutines (interleaved with the pacing sleeps, which
emit no events themselves), so under asyncio they start executing inside
`asyncio.gather`, after all pacing sleeps; `gather` evaluates them and
returns their results in argument order, propagating the first exception. -/
def process_certificate_batch (fenv : String → FetchEnv) (cfg : Cfg)
    (rate_limit : ℚ) (certificate_ids : List String) :
    Except PyExc (List Ev × List (Option (String × String × String))) := do
  let rs ← gatherFetch fenv cfg certificate_ids
  return (paceEvents rate_limit certificate_ids.length ++
            (rs.map (·.1)).flatten,
          rs.map (·.2))

/-- Fuel-driven chunking: `chunksOfAux c fuel l` mirrors the slicing loop
`for i in range(0, len(ids), c): ids[i:i+c]` as long as `fuel` bounds the
number of slices; used with `fuel = l.length`, enough whenever `1 ≤ c`. -/
def chunksOfAux (c : ℕ) : ℕ → List String → List (List String)
  | 0, _ => []
  | _ + 1, [] => []
  | fuel + 1, x :: xs =>
    (x :: xs).take c :: chunksOfAux c fuel ((x :: xs).drop c)

/-- The batch partition of script.py lines 164–165. -/
def chunksOf (c : ℕ) (l : List String) : List (List String) :=
  chunksOfAux c l.length l

/-- The body of the batching loop of `main` (script.py lines 163–175):
process the chunks in order, concatenating traces and results
(`all_results.extend(results)`). -/
def processChunks (fenv : String → FetchEnv) (cfg : Cfg) (rate_limit : ℚ) :
    List (List String) →
    Except PyExc (List Ev × List (Option (String × String × String)))
  | [] => .ok ([], [])
  | batch :: rest => do
    let p ← process_certificate_batch fenv cfg rate_limit batch
    let q ← processChunks fenv cfg rate_limit rest
    return (p.1 ++ q.1, p.2 ++ q.2)

/-- The batching loop of `main` (script.py lines 163–175). -/
def processAll (fenv : String → FetchEnv) (cfg : Cfg) (rate_limit : ℚ)
    (concurrency : ℕ) (certificate_ids : List String) :
    Except PyExc (List Ev × List (Option (String × String × String))) :=
  processChunks fenv cfg rate_limit (chunksOf concurrency certificate_ids)

/-- The usable identifiers read from the input file (script.py line 146):
each line stripped, blank lines dropped. -/
def usableIds (rawLines : List String) : List String :=
  rawLines.filterMap
    (fun line => if pyStrip line = "" then none else some (pyStrip line))

/-- The outside world as seen by `main` and the `__main__` guard:
whether the input file exists and is readable, its lines, the behaviour of
every identifier's fetches, whether the user interrupts during batch
processing, and whether the report write succeeds. -/
structure MainEnv where
  inputExists : Bool
  readOk : Bool
  rawLines : List String
  fenv : String → FetchEnv
  interrupted : Bool
  writeOk : Bool

/-- Command-line arguments relevant to the modelled behaviour. -/
structure Args where
  concurrency : ℕ
  timeout : ℤ
  retries : ℕ
  delay : ℚ
  rateLimit : ℚ

/-- What the process does in the end: its exit status, the fetch-side events
it performed, and the report rows written (`none` when no report file is
produced). -/
structure ProcOut where
  exitCode : ℕ
  events : List Ev
  report : Option (List (Option (String × String × String)))
  deriving DecidableEq

def Args.cfg (a : Args) : Cfg :=
  ⟨a.timeout, a.retries, a.delay⟩

/-- `main` plus the `__main__` guard (script.py lines 132–197).  The three
configuration checks each call `sys.exit(1)` (lines 142, 149, 153) before
any browser work; `SystemExit` is not an `Exception`, so the guard lets the
status through.  A `KeyboardInterrupt` during batch processing propagates
out of `main` before the report block and is turned into `sys.exit(0)`
(line 194); any other exception escaping `main` — including one from
`fetch_certificate_data` — hits the handler at line 195 and exits 1.  A
failing report write exits 1 (line 187) with no usable report. -/
def runProcess (env : MainEnv) (a : Args) : ProcOut :=
  if env.inputExists = false then ⟨1, [], none⟩
  else if env.readOk = false then ⟨1, [], none⟩
  else
    let ids := usableIds env.rawLines
    if ids.isEmpty then ⟨1, [], none⟩
    else if env.interrupted then ⟨0, [], none⟩
    else
      match processAll env.fenv a.cfg a.rateLimit a.concurrency ids with
      | .error _ => ⟨1, [], none⟩
      | .ok (t, rows) =>
        if env.writeOk then ⟨0, t, some rows⟩ else ⟨1, t, none⟩

/-- Does a snapshot raise before entering its `try` block?  True exactly for
the two statements preceding the `try` in `save_debug_snapshot`. -/
def SnapSpec.raises : SnapSpec → Bool
  | .pageCreateRaises => true
  | .makedirsRaises => true
  | .bodyFails => false
  | .bodyOk => false

/-- The trace of a non-raising snapshot (the `.ok` payload of
`save_debug_snapshot`). -/
def snapEvents (snap : SnapSpec) (certificate_id : String) (timeout : ℤ) :
    List Ev :=
  match snap with
  | .bodyFails =>
    [.snapshotCall certificate_id timeout, .pageOpen,
     .navigate (certUrl certificate_id) timeout, .pageClose]
  | .bodyOk =>
    [.snapshotCall certificate_id timeout, .pageOpen,
     .navigate (certUrl certificate_id) timeout, .settleSleep 2,
     .snapshotSaved certificate_id, .pageClose]
  | _ => []

/-- The whole event trace of a run of the retry loop in which every attempt
fails with a caught failure: the attempts from `attempt` for `fuel`
iterations, then the snapshot. -/
def failTrace (fe : FetchEnv) (cfg : Cfg) (certificate_id : String) :
    ℕ → ℕ → List Ev
  | _, 0 => snapEvents fe.snap certificate_id cfg.timeout
  | attempt, fuel + 1 =>
    attemptPrefix certificate_id cfg attempt ++
      failEvents certificate_id cfg (fe.attempts attempt) ++
      failTrace fe cfg certificate_id (attempt + 1) fuel

/-- An environment in which neither the per-attempt page creation nor the
snapshot preamble raises, so that no exception can escape the worker. -/
def FetchEnv.noRaise (fe : FetchEnv) : Prop :=
  (∀ k, fe.attempts k ≠ .pageCreateRaises) ∧ fe.snap.raises = false

/-- Recogniser for the start-of-attempt marker. -/
def isAttemptStart : Ev → Bool
  | .attemptStart _ _ => true
  | _ => false

/-- Recogniser for a `save_debug_snapshot` invocation. -/
def isSnapshotCall : Ev → Bool
  | .snapshotCall _ _ => true
  | _ => false

/-- The durations of the backoff sleeps (script.py line 52) occurring in a
trace, in order. -/
def retryDelays (t : List Ev) : List ℚ :=
  t.filterMap (fun e =>
    match e with
    | .retrySleep d => some d
    | _ => none)

/-- An always-failing fetch environment used to instantiate the theorems:
every navigation times out and the snapshot succeeds. -/
def envTimeout : FetchEnv :=
  ⟨fun _ => .gotoTimeout, .bodyOk⟩

/-- A well-behaved fetch environment: the first attempt loads the page and
both fields are present. -/
def envGood : FetchEnv :=
  ⟨fun _ => .loaded (some "  a  b\tc ") (some " 9.5 "), .bodyOk⟩

/-- A fetch environment whose page creation raises on every attempt. -/
def envPageCrash : FetchEnv :=
  ⟨fun _ => .pageCreateRaises, .bodyOk⟩

/-- Default command-line arguments of the script. -/
def args0 : Args :=
  ⟨5, 15000, 3, 2, 1⟩

/-- A world in which the input file is missing. -/
def envMissingInput : MainEnv :=
  ⟨false, true, [], fun _ => envGood, false, true⟩

/-- A world in which the user interrupts during batch processing. -/
def envInterrupted : MainEnv :=
  ⟨true, true, ["a"], fun _ => envGood, true, true⟩

/-! ## Lemmas about the retry loop -/

/-- A non-raising snapshot returns normally, with its event list given by
`snapEvents`; the Boolean records whether the debug file was written. -/
theorem save_debug_snapshot_eq_of_noRaise (snap : SnapSpec)
    (certificate_id : String) (timeout : ℤ) (h : snap.raises = false) :
    save_debug_snapshot snap certificate_id timeout =
      .ok (snapEvents snap certificate_id timeout, snap = .bodyOk) := by
  cases snap <;> simp_all [SnapSpec.raises, save_debug_snapshot, snapEvents]

/-- Closed form of the retry loop when every attempt fails with a caught
failure and the snapshot does not raise: the loop returns the sentinel
triple and the `failTrace` events. -/
theorem fetchLoop_eq_of_fail (fe : FetchEnv) (cfg : Cfg)
    (certificate_id : String) (hs : fe.snap.raises = false)
    (hf : ∀ k, (fe.attempts k).caughtFail = true) :
    ∀ fuel attempt,
      fetchLoop fe cfg certificate_id attempt fuel =
        .ok (failTrace fe cfg certificate_id attempt fuel,
             some (certificate_id, "Error", "Error")) := by
  intro fuel
  induction fuel with
  | zero =>
    intro attempt
    simp [fetchLoop, failTrace, Except.map,
      save_debug_snapshot_eq_of_noRaise fe.snap certificate_id cfg.timeout hs]
  | succ n ih =>
    intro attempt
    have h := hf attempt
    rcases hA : fe.attempts attempt with _ | _ | _ | _ | ⟨nameRaw, gradeRaw⟩
    · rw [hA] at h; simp [AttemptSpec.caughtFail] at h
    · simp [fetchLoop, hA, ih, failTrace, Except.map]
    · simp [fetchLoop, hA, ih, failTrace, Except.map]
    · simp [fetchLoop, hA, ih, failTrace, Except.map]
    · rcases nameRaw with _ | n0
      · simp [fetchLoop, hA, ih, failTrace, Except.map]
      · rcases gradeRaw with _ | g0
        · simp [fetchLoop, hA, ih, failTrace, Except.map]
        · rw [hA] at h; simp [AttemptSpec.caughtFail] at h

/-- Whenever the retry loop returns normally, the payload is `some` triple
whose first component is the identifier it was given. -/
theorem fetchLoop_ok_shape (fe : FetchEnv) (cfg : Cfg)
    (certificate_id : String) :
    ∀ fuel attempt t r,
      fetchLoop fe cfg certificate_id attempt fuel = .ok (t, r) →
      ∃ n g, r = some (certificate_id, n, g) := by
  intro fuel
  induction fuel with
  | zero =>
    intro attempt t r h
    rcases hS : save_debug_snapshot fe.snap certificate_id cfg.timeout with
      e | p
    · rw [fetchLoop, hS] at h; exact absurd h (by simp [Except.map])
    · rw [fetchLoop, hS] at h
      simp [Except.map] at h
      exact ⟨"Error", "Error", h.2.symm⟩
  | succ n ih =>
    intro attempt t r h
    rcases hA : fe.attempts attempt with _ | _ | _ | _ | ⟨nameRaw, gradeRaw⟩ <;>
      rw [fetchLoop, hA] at h
    · exact absurd h (by simp)
    · rcases hR : fetchLoop fe cfg certificate_id (attempt + 1) n with
        e | ⟨pt, pr⟩ <;> rw [hR] at h
      · exact absurd h (by simp [Except.map])
      · simp [Except.map] at h
        obtain ⟨nn, gg, hp⟩ := ih (attempt + 1) pt pr hR
        exact ⟨nn, gg, by rw [← h.2, hp]⟩
    · rcases hR : fetchLoop fe cfg certificate_id (attempt + 1) n with
        e | ⟨pt, pr⟩ <;> rw [hR] at h
      · exact absurd h (by simp [Except.map])
      · simp [Except.map] at h
        obtain ⟨nn, gg, hp⟩ := ih (attempt + 1) pt pr hR
        exact ⟨nn, gg, by rw [← h.2, hp]⟩
    · rcases hR : fetchLoop fe cfg certificate_id (attempt + 1) n with
        e | ⟨pt, pr⟩ <;> rw [hR] at h
      · exact absurd h (by simp [Except.map])
      · simp [Except.map] at h
        obtain ⟨nn, gg, hp⟩ := ih (attempt + 1) pt pr hR
        exact ⟨nn, gg, by rw [← h.2, hp]⟩
    · rcases nameRaw with _ | n0
      · rcases hR : fetchLoop fe cfg certificate_id (attempt + 1) n with
          e | ⟨pt, pr⟩ <;> rw [hR] at h
        · exact absurd h (by simp [Except.map])
        · simp [Except.map] at h
          obtain ⟨nn, gg, hp⟩ := ih (attempt + 1) pt pr hR
          exact ⟨nn, gg, by rw [← h.2, hp]⟩
      · rcases gradeRaw with _ | g0
        · rcases hR : fetchLoop fe cfg certificate_id (attempt + 1) n with
            e | ⟨pt, pr⟩ <;> rw [hR] at h
          · exact absurd h (by simp [Except.map])
          · simp [Except.map] at h
            obtain ⟨nn, gg, hp⟩ := ih (attempt + 1) pt pr hR
            exact ⟨nn, gg, by rw [← h.2, hp]⟩
        · simp at h
          exact ⟨pyCollapse n0, pyStrip g0, h.2.symm⟩

/-- If page creation never raises and the snapshot preamble does not raise,
the retry loop returns normally. -/
theorem fetchLoop_ok_of_noRaise (fe : FetchEnv) (cfg : Cfg)
    (certificate_id : String) (h : fe.noRaise) :
    ∀ fuel attempt, ∃ t r,
      fetchLoop fe cfg certificate_id attempt fuel = .ok (t, r) := by
  intro fuel
  induction fuel with
  | zero =>
    intro attempt
    refine ⟨snapEvents fe.snap certificate_id cfg.timeout,
      some (certificate_id, "Error", "Error"), ?_⟩
    rw [fetchLoop,
      save_debug_snapshot_eq_of_noRaise fe.snap certificate_id cfg.timeout h.2]
    rfl
  | succ n ih =>
    intro attempt
    obtain ⟨t, r, hR⟩ := ih (attempt + 1)
    rcases hA : fe.attempts attempt with _ | _ | _ | _ | ⟨nameRaw, gradeRaw⟩
    · exact absurd hA (h.1 attempt)
    · exact ⟨_, _, by rw [fetchLoop, hA, hR]; rfl⟩
    · exact ⟨_, _, by rw [fetchLoop, hA, hR]; rfl⟩
    · exact ⟨_, _, by rw [fetchLoop, hA, hR]; rfl⟩
    · rcases nameRaw with _ | n0
      · exact ⟨_, _, by rw [fetchLoop, hA, hR]; rfl⟩
      · rcases gradeRaw with _ | g0
        · exact ⟨_, _, by rw [fetchLoop, hA, hR]; rfl⟩
        · exact ⟨_, _, by rw [fetchLoop, hA]⟩

/-! ## Lemmas about the failure trace -/

/-- `attemptPrefix` contains exactly one `attemptStart`. -/
theorem countP_attemptPrefix (certificate_id : String) (cfg : Cfg)
    (attempt : ℕ) :
    (attemptPrefix certificate_id cfg attempt).countP isAttemptStart = 1 := by
  by_cases h : 1 < attempt <;>
    simp [attemptPrefix, h, List.countP_cons, isAttemptStart]

/-- `failEvents` contains no `attemptStart`. -/
theorem countP_failEvents (certificate_id : String) (cfg : Cfg)
    (spec : AttemptSpec) :
    (failEvents certificate_id cfg spec).countP isAttemptStart = 0 := by
  cases spec <;> simp [failEvents, List.countP_cons, isAttemptStart]

/-- `snapEvents` contains no `attemptStart`. -/
theorem countP_snapEvents (snap : SnapSpec) (certificate_id : String)
    (timeout : ℤ) :
    (snapEvents snap certificate_id timeout).countP isAttemptStart = 0 := by
  cases snap <;> simp [snapEvents, List.countP_cons, isAttemptStart]

/-- One attempt marker per loop iteration: the failure trace of `fuel`
attempts contains exactly `fuel` `attemptStart` events. -/
theorem countP_failTrace (fe : FetchEnv) (cfg : Cfg)
    (certificate_id : String) :
    ∀ fuel attempt,
      (failTrace fe cfg certificate_id attempt fuel).countP isAttemptStart =
        fuel := by
  intro fuel
  induction fuel with
  | zero => intro attempt; simp [failTrace, countP_snapEvents]
  | succ n ih =>
    intro attempt
    simp [failTrace, List.countP_append, countP_attemptPrefix,
      countP_failEvents, ih, Nat.add_comm]

/-- The attempt markers present in the failure trace are exactly those of
the performed attempt numbers `attempt, …, attempt + fuel - 1`, all carrying
the worker's own identifier. -/
theorem attemptStart_mem_failTrace (fe : FetchEnv) (cfg : Cfg)
    (certificate_id : String) :
    ∀ fuel attempt i k,
      Ev.attemptStart i k ∈ failTrace fe cfg certificate_id attempt fuel ↔
        (i = certificate_id ∧ attempt ≤ k ∧ k < attempt + fuel) := by
  intro fuel
  induction fuel with
  | zero =>
    intro attempt i k
    simp only [failTrace]
    constructor
    · intro h
      exact absurd h (by cases hS : fe.snap <;> simp [snapEvents, hS])
    · rintro ⟨h0, h1, h2⟩; omega
  | succ n ih =>
    intro attempt i k
    simp only [failTrace, List.mem_append, ih]
    have hpre : Ev.attemptStart i k ∈ attemptPrefix certificate_id cfg attempt ↔
        (i = certificate_id ∧ k = attempt) := by
      by_cases h : 1 < attempt <;> simp [attemptPrefix, h, and_comm]
    have hfe : Ev.attemptStart i k ∉
        failEvents certificate_id cfg (fe.attempts attempt) := by
      cases fe.attempts attempt <;> simp [failEvents]
    constructor
    · rintro ((h | h) | h)
      · obtain ⟨hi, hk⟩ := hpre.1 h
        exact ⟨hi, by omega, by omega⟩
      · exact absurd h hfe
      · obtain ⟨hi, h1, h2⟩ := h
        exact ⟨hi, by omega, by omega⟩
    · rintro ⟨rfl, h1, h2⟩
      by_cases hk : k = attempt
      · exact Or.inl (Or.inl (hpre.2 ⟨rfl, hk⟩))
      · exact Or.inr ⟨rfl, by omega, by omega⟩

/-- `failEvents` contains no snapshot call. -/
theorem snapshotCall_not_mem_failEvents (certificate_id : String) (cfg : Cfg)
    (spec : AttemptSpec) (i : String) (to_ : ℤ) :
    Ev.snapshotCall i to_ ∉ failEvents certificate_id cfg spec := by
  cases spec <;> simp [failEvents]

/-- `attemptPrefix` contains no snapshot call. -/
theorem snapshotCall_not_mem_attemptPrefix (certificate_id : String)
    (cfg : Cfg) (attempt : ℕ) (i : String) (to_ : ℤ) :
    Ev.snapshotCall i to_ ∉ attemptPrefix certificate_id cfg attempt := by
  by_cases h : 1 < attempt <;> simp [attemptPrefix, h]

/-- For a non-raising snapshot, `snapEvents` contains exactly one snapshot
call. -/
theorem countP_snapshotCall_snapEvents (snap : SnapSpec)
    (certificate_id : String) (timeout : ℤ) (h : snap.raises = false) :
    (snapEvents snap certificate_id timeout).countP isSnapshotCall = 1 := by
  cases snap <;> simp_all [SnapSpec.raises, snapEvents, List.countP_cons,
    isSnapshotCall]

/-- The failure trace contains exactly one snapshot call when the snapshot
does not raise. -/
theorem countP_snapshotCall_failTrace (fe : FetchEnv) (cfg : Cfg)
    (certificate_id : String) (hs : fe.snap.raises = false) :
    ∀ fuel attempt,
      (failTrace fe cfg certificate_id attempt fuel).countP isSnapshotCall =
        1 := by
  intro fuel
  induction fuel with
  | zero =>
    intro attempt
    exact countP_snapshotCall_snapEvents fe.snap certificate_id cfg.timeout hs
  | succ n ih =>
    intro attempt
    have h1 : (attemptPrefix certificate_id cfg attempt).countP
        isSnapshotCall = 0 := by
      by_cases h : 1 < attempt <;>
        simp [attemptPrefix, h, List.countP_cons, isSnapshotCall]
    have h2 : (failEvents certificate_id cfg (fe.attempts attempt)).countP
        isSnapshotCall = 0 := by
      cases fe.attempts attempt <;>
        simp [failEvents, List.countP_cons, isSnapshotCall]
    simp [failTrace, List.countP_append, h1, h2, ih]

/-- Every snapshot call in the failure trace carries the worker's own
identifier and timeout. -/
theorem snapshotCall_mem_failTrace (fe : FetchEnv) (cfg : Cfg)
    (certificate_id : String) :
    ∀ fuel attempt i to_,
      Ev.snapshotCall i to_ ∈ failTrace fe cfg certificate_id attempt fuel →
      i = certificate_id ∧ to_ = cfg.timeout := by
  intro fuel
  induction fuel with
  | zero =>
    intro attempt i to_ h
    rw [failTrace] at h
    cases hS : fe.snap <;> rw [hS] at h <;> simp [snapEvents] at h <;>
      exact ⟨h.1, h.2⟩
  | succ n ih =>
    intro attempt i to_ h
    rw [failTrace] at h
    rcases List.mem_append.1 h with h' | h'
    · rcases List.mem_append.1 h' with h'' | h''
      · exact absurd h''
          (snapshotCall_not_mem_attemptPrefix certificate_id cfg attempt i to_)
      · exact absurd h''
          (snapshotCall_not_mem_failEvents certificate_id cfg _ i to_)
    · exact ih (attempt + 1) i to_ h'

/-- The snapshot call with the worker's identifier and timeout is present in
the failure trace (when the snapshot does not raise). -/
theorem snapshotCall_self_mem_failTrace (fe : FetchEnv) (cfg : Cfg)
    (certificate_id : String) (hs : fe.snap.raises = false) :
    ∀ fuel attempt,
      Ev.snapshotCall certificate_id cfg.timeout ∈
        failTrace fe cfg certificate_id attempt fuel := by
  intro fuel
  induction fuel with
  | zero =>
    intro attempt
    rw [failTrace]
    cases hS : fe.snap <;> simp_all [SnapSpec.raises, snapEvents]
  | succ n ih =>
    intro attempt
    rw [failTrace]
    exact List.mem_append.2 (Or.inr (ih (attempt + 1)))

/-- `retryDelays` distributes over trace concatenation. -/
theorem retryDelays_append (a b : List Ev) :
    retryDelays (a ++ b) = retryDelays a ++ retryDelays b := by
  simp [retryDelays]

/-- The backoff sleeps of one attempt's lead-in: one sleep of
`retry_delay * attempt` for attempts after the first, none for the first. -/
theorem retryDelays_attemptPrefix (certificate_id : String) (cfg : Cfg)
    (attempt : ℕ) :
    retryDelays (attemptPrefix certificate_id cfg attempt) =
      if 1 < attempt then [cfg.retry_delay * attempt] else [] := by
  by_cases h : 1 < attempt <;> simp [attemptPrefix, retryDelays, h]

/-- The failure tail of an attempt contains no backoff sleep. -/
theorem retryDelays_failEvents (certificate_id : String) (cfg : Cfg)
    (spec : AttemptSpec) :
    retryDelays (failEvents certificate_id cfg spec) = [] := by
  cases spec <;> simp [failEvents, retryDelays]

/-- The snapshot contains no backoff sleep. -/
theorem retryDelays_snapEvents (snap : SnapSpec) (certificate_id : String)
    (timeout : ℤ) :
    retryDelays (snapEvents snap certificate_id timeout) = [] := by
  cases snap <;> simp [snapEvents, retryDelays]

/-- Backoff sleeps of the failure trace, starting from an attempt number
past the first: one sleep of `retry_delay * k` for each performed attempt
`k`. -/
theorem retryDelays_failTrace_of_two_le (fe : FetchEnv) (cfg : Cfg)
    (certificate_id : String) :
    ∀ fuel attempt, 2 ≤ attempt →
      retryDelays (failTrace fe cfg certificate_id attempt fuel) =
        (List.range' attempt fuel).map
          (fun k : ℕ => cfg.retry_delay * k) := by
  intro fuel
  induction fuel with
  | zero =>
    intro attempt _
    simp [failTrace, retryDelays_snapEvents]
  | succ n ih =>
    intro attempt h2
    have h1 : 1 < attempt := h2
    rw [failTrace, retryDelays_append, retryDelays_append,
      retryDelays_attemptPrefix, retryDelays_failEvents,
      ih (attempt + 1) (by omega), if_pos h1, List.range'_succ,
      List.map_cons]
    rfl

/-- Backoff sleeps of the whole always-failing run: the first attempt sleeps
nothing, and each retry beginning attempt `k` (for `k = 2, …,
retry_count + 1`) is preceded by a sleep of `retry_delay * k`. -/
theorem retryDelays_failTrace_one (fe : FetchEnv) (cfg : Cfg)
    (certificate_id : String) :
    retryDelays (failTrace fe cfg certificate_id 1 (cfg.retry_count + 1)) =
      (List.range' 2 cfg.retry_count).map
        (fun k : ℕ => cfg.retry_delay * k) := by
  rw [failTrace, retryDelays_append, retryDelays_append,
    retryDelays_attemptPrefix, retryDelays_failEvents,
    retryDelays_failTrace_of_two_le fe cfg certificate_id cfg.retry_count 2
      (by omega)]
  rfl

/-- Multiplying a strictly increasing run of naturals by a positive rational
gives a strictly increasing list. -/
theorem chain_lt_map_range' (d : ℚ) (hd : 0 < d) :
    ∀ n a, ((List.range' a n).map (fun k : ℕ => d * k)).Chain' (· < ·) := by
  intro n
  induction n with
  | zero => intro a; simp
  | succ m ih =>
    intro a
    rw [List.range'_succ, List.map_cons]
    cases m with
    | zero => simp
    | succ m' =>
      refine List.Chain'.cons ?_ (ih (a + 1))
      show d * (a : ℚ) < d * ((a + 1 : ℕ) : ℚ)
      have h : (a : ℚ) < ((a + 1 : ℕ) : ℚ) := by push_cast; linarith
      exact mul_lt_mul_of_pos_left h hd

/-! ## Lemmas about the text normalisation -/

/-- The first element surviving `dropWhile p` does not satisfy `p`. -/
theorem head?_dropWhile_false {α : Type} (p : α → Bool) :
    ∀ (l : List α) (c : α), (l.dropWhile p).head? = some c → p c = false := by
  intro l
  induction l with
  | nil => intro c h; simp at h
  | cons a as ih =>
    intro c h
    by_cases hp : p a
    · rw [List.dropWhile_cons_of_pos hp] at h
      exact ih c h
    · rw [List.dropWhile_cons_of_neg hp] at h
      simp at h
      rw [← h]
      exact Bool.eq_false_iff.2 hp

/-- A list of non-whitespace characters has no two adjacent whitespace
characters. -/
theorem chain'_of_all_nonspace :
    ∀ l : List Char, (∀ c ∈ l, pyIsSpace c = false) →
      l.Chain' (fun a b => ¬(pyIsSpace a = true ∧ pyIsSpace b = true)) := by
  intro l
  induction l with
  | nil => intro _; simp
  | cons a as ih =>
    intro h
    refine List.chain'_cons'.2 ⟨?_, ih (fun c hc => h c (List.mem_cons_of_mem a hc))⟩
    intro y _ hy
    rw [h a (List.mem_cons_self a as)] at hy
    exact absurd hy.1 (by simp)

/-- Every word produced by the splitting scan is non-empty and free of
whitespace, provided the running accumulator is. -/
theorem pyWordsAux_good :
    ∀ (l acc : List Char), (∀ c ∈ acc, pyIsSpace c = false) →
      ∀ w ∈ pyWordsAux l acc, w ≠ [] ∧ ∀ c ∈ w, pyIsSpace c = false := by
  intro l
  induction l with
  | nil =>
    intro acc hacc w hw
    rw [pyWordsAux] at hw
    by_cases h : acc.isEmpty
    · simp [h] at hw
    · rw [if_neg h] at hw
      rcases List.mem_singleton.1 hw with rfl
      refine ⟨fun hcon => ?_, fun c hc => hacc c (List.mem_reverse.1 hc)⟩
      rw [List.reverse_eq_nil_iff] at hcon
      simp [hcon] at h
  | cons a as ih =>
    intro acc hacc w hw
    rw [pyWordsAux] at hw
    by_cases hs : pyIsSpace a
    · rw [if_pos hs] at hw
      by_cases h : acc.isEmpty
      · rw [if_pos h] at hw
        exact ih [] (by simp) w hw
      · rw [if_neg h] at hw
        rcases List.mem_cons.1 hw with rfl | hw'
        · refine ⟨fun hcon => ?_, fun c hc => hacc c (List.mem_reverse.1 hc)⟩
          rw [List.reverse_eq_nil_iff] at hcon
          simp [hcon] at h
        · exact ih [] (by simp) w hw'
    · rw [if_neg hs] at hw
      refine ih (a :: acc) ?_ w hw
      intro c hc
      rcases List.mem_cons.1 hc with rfl | hc'
      · exact Bool.eq_false_iff.2 hs
      · exact hacc c hc'

/-- All words of `pyWords l` are non-empty and whitespace-free. -/
theorem pyWords_good (l : List Char) :
    ∀ w ∈ pyWords l, w ≠ [] ∧ ∀ c ∈ w, pyIsSpace c = false :=
  pyWordsAux_good l [] (by simp)

/-- Joining non-empty words gives a non-empty list. -/
theorem joinSpace_ne_nil (w : List Char) (ws : List (List Char))
    (hw : w ≠ []) : joinSpace (w :: ws) ≠ [] := by
  cases ws with
  | nil => simpa [joinSpace] using hw
  | cons v vs => simp [joinSpace]

/-- A normalised piece of text: every whitespace character in it is a plain
space, no two adjacent characters are both whitespace (each internal
whitespace run is a single space), and it neither starts nor ends with
whitespace. -/
def Collapsed (l : List Char) : Prop :=
  (∀ c ∈ l, pyIsSpace c = true → c = ' ') ∧
  l.Chain' (fun a b => ¬(pyIsSpace a = true ∧ pyIsSpace b = true)) ∧
  (∀ c, l.head? = some c → pyIsSpace c = false) ∧
  (∀ c, l.getLast? = some c → pyIsSpace c = false)

/-- Joining non-empty whitespace-free words with single spaces yields a
normalised text. -/
theorem joinSpace_collapsed :
    ∀ ws : List (List Char),
      (∀ w ∈ ws, w ≠ [] ∧ ∀ c ∈ w, pyIsSpace c = false) →
      Collapsed (joinSpace ws)
  | [] => by
    intro _
    exact ⟨by simp [joinSpace], by simp [joinSpace], by simp [joinSpace],
      by simp [joinSpace]⟩
  | [w] => by
    intro hg
    obtain ⟨hne, hns⟩ := hg w (List.mem_singleton.2 rfl)
    refine ⟨?_, chain'_of_all_nonspace w hns, ?_, ?_⟩
    · intro c hc hsp
      rw [joinSpace] at hc
      rw [hns c hc] at hsp
      exact absurd hsp (by simp)
    · intro c hc
      rw [joinSpace] at hc
      exact hns c (List.mem_of_mem_head? hc)
    · intro c hc
      rw [joinSpace] at hc
      exact hns c (List.mem_of_mem_getLast? hc)
  | w :: v :: ws => by
    intro hg
    obtain ⟨hwne, hwns⟩ := hg w (List.mem_cons_self w (v :: ws))
    have hvne : v ≠ [] := (hg v (List.mem_cons_of_mem w (List.mem_cons_self v ws))).1
    have hrest : Collapsed (joinSpace (v :: ws)) :=
      joinSpace_collapsed (v :: ws)
        (fun u hu => hg u (List.mem_cons_of_mem w hu))
    have hrne : joinSpace (v :: ws) ≠ [] := joinSpace_ne_nil v ws hvne
    have hjoin : joinSpace (w :: v :: ws) =
        w ++ ' ' :: joinSpace (v :: ws) := rfl
    rw [hjoin]
    refine ⟨?_, ?_, ?_, ?_⟩
    · intro c hc hsp
      rcases List.mem_append.1 hc with hc' | hc'
      · rw [hwns c hc'] at hsp
        exact absurd hsp (by simp)
      · rcases List.mem_cons.1 hc' with rfl | hc''
        · rfl
        · exact hrest.1 c hc'' hsp
    · refine List.chain'_append.2 ⟨chain'_of_all_nonspace w hwns, ?_, ?_⟩
      · refine List.chain'_cons'.2 ⟨?_, hrest.2.1⟩
        intro y hy hcon
        rw [hrest.2.2.1 y hy] at hcon
        exact absurd hcon.2 (by simp)
      · intro x hx y _ hcon
        rw [hwns x (List.mem_of_mem_getLast? hx)] at hcon
        exact absurd hcon.1 (by simp)
    · intro c hc
      rw [List.head?_append_of_ne_nil w hwne] at hc
      exact hwns c (List.mem_of_mem_head? hc)
    · intro c hc
      rw [List.getLast?_append_of_ne_nil w (by simp)] at hc
      have : (' ' :: joinSpace (v :: ws)).getLast? =
          (joinSpace (v :: ws)).getLast? := by
        rw [show (' ' :: joinSpace (v :: ws)) = [' '] ++ joinSpace (v :: ws)
              from rfl,
          List.getLast?_append_of_ne_nil [' '] hrne]
      rw [this] at hc
      exact hrest.2.2.2 c hc

/-- The card-name normalisation produces normalised text. -/
theorem pyCollapse_collapsed (s : String) :
    Collapsed (pyCollapse s).toList :=
  joinSpace_collapsed (pyWords s.toList) (pyWords_good s.toList)

/-- Joining whitespace-free words adds only spaces: filtering the
whitespace out again recovers the concatenated words. -/
theorem filter_nonspace_joinSpace :
    ∀ ws : List (List Char),
      (∀ w ∈ ws, w ≠ [] ∧ ∀ c ∈ w, pyIsSpace c = false) →
      (joinSpace ws).filter (fun c => !pyIsSpace c) = ws.flatten
  | [] => by intro _; simp [joinSpace]
  | [w] => by
    intro hg
    have hns := (hg w (List.mem_singleton.2 rfl)).2
    rw [joinSpace]
    simp only [List.flatten, List.append_nil]
    exact List.filter_eq_self.2 (fun c hc => by simp [hns c hc])
  | w :: v :: ws => by
    intro hg
    have hns := (hg w (List.mem_cons_self w (v :: ws))).2
    have ih := filter_nonspace_joinSpace (v :: ws)
      (fun u hu => hg u (List.mem_cons_of_mem w hu))
    have hjoin : joinSpace (w :: v :: ws) =
        w ++ ' ' :: joinSpace (v :: ws) := rfl
    rw [hjoin, List.filter_append,
      List.filter_eq_self.2 (fun c hc => by simp [hns c hc]),
      List.filter_cons]
    have hsp : pyIsSpace ' ' = true := rfl
    simp [hsp, ih]

/-- The words of a scan concatenate to the non-whitespace characters of the
input (in order), prefixed by the pending accumulator. -/
theorem flatten_pyWordsAux :
    ∀ l acc : List Char,
      (pyWordsAux l acc).flatten =
        acc.reverse ++ l.filter (fun c => !pyIsSpace c) := by
  intro l
  induction l with
  | nil =>
    intro acc
    rw [pyWordsAux]
    by_cases h : acc.isEmpty
    · rw [if_pos h]
      rw [List.isEmpty_iff] at h
      simp [h]
    · rw [if_neg h]; simp
  | cons a as ih =>
    intro acc
    rw [pyWordsAux]
    by_cases hs : pyIsSpace a
    · rw [if_pos hs]
      by_cases h : acc.isEmpty
      · rw [if_pos h, ih []]
        rw [List.isEmpty_iff] at h
        simp [h, List.filter_cons, hs]
      · rw [if_neg h]
        simp [ih [], List.filter_cons, hs]
    · rw [if_neg hs, ih (a :: acc)]
      simp [List.filter_cons, hs]

/-- The name normalisation only removes or rewrites whitespace: the
non-whitespace characters of `pyCollapse s` are exactly those of `s`, in
order. -/
theorem filter_nonspace_pyCollapse (s : String) :
    (pyCollapse s).toList.filter (fun c => !pyIsSpace c) =
      s.toList.filter (fun c => !pyIsSpace c) := by
  have h1 : (pyCollapse s).toList = joinSpace (pyWords s.toList) := rfl
  rw [h1, filter_nonspace_joinSpace (pyWords s.toList) (pyWords_good s.toList),
    pyWords, flatten_pyWordsAux s.toList []]
  simp

/-- `pyStripList` removes a whitespace prefix and a whitespace suffix and
nothing else. -/
theorem pyStripList_decomp (l : List Char) :
    ∃ pre suf, l = pre ++ pyStripList l ++ suf ∧
      (∀ c ∈ pre, pyIsSpace c = true) ∧ (∀ c ∈ suf, pyIsSpace c = true) := by
  refine ⟨l.takeWhile pyIsSpace,
    ((l.dropWhile pyIsSpace).reverse.takeWhile pyIsSpace).reverse, ?_, ?_, ?_⟩
  · have h1 : l.takeWhile pyIsSpace ++ l.dropWhile pyIsSpace = l :=
      List.takeWhile_append_dropWhile pyIsSpace l
    have h2 : l.dropWhile pyIsSpace =
        pyStripList l ++
          ((l.dropWhile pyIsSpace).reverse.takeWhile pyIsSpace).reverse := by
      have h3 : (l.dropWhile pyIsSpace).reverse.takeWhile pyIsSpace ++
          (l.dropWhile pyIsSpace).reverse.dropWhile pyIsSpace =
          (l.dropWhile pyIsSpace).reverse :=
        List.takeWhile_append_dropWhile pyIsSpace (l.dropWhile pyIsSpace).reverse
      have h4 := congrArg List.reverse h3
      rw [List.reverse_append, List.reverse_reverse] at h4
      rw [pyStripList]
      exact h4.symm
    rw [List.append_assoc, ← h2, h1]
  · exact fun c hc => List.mem_takeWhile_imp hc
  · exact fun c hc => List.mem_takeWhile_imp (List.mem_reverse.1 hc)

/-- The stripped text does not start with whitespace. -/
theorem pyStripList_head (l : List Char) (c : Char)
    (h : (pyStripList l).head? = some c) : pyIsSpace c = false := by
  obtain ⟨pre, suf, hdec, _, _⟩ := pyStripList_decomp l
  have hne : pyStripList l ≠ [] := by
    intro hcon
    rw [hcon] at h
    simp at h
  have hmid : (pyStripList l ++
      ((l.dropWhile pyIsSpace).reverse.takeWhile pyIsSpace).reverse).head? =
      some c := by
    rw [List.head?_append_of_ne_nil _ hne]
    exact h
  have h2 : l.dropWhile pyIsSpace =
      pyStripList l ++
        ((l.dropWhile pyIsSpace).reverse.takeWhile pyIsSpace).reverse := by
    have h3 : (l.dropWhile pyIsSpace).reverse.takeWhile pyIsSpace ++
        (l.dropWhile pyIsSpace).reverse.dropWhile pyIsSpace =
        (l.dropWhile pyIsSpace).reverse :=
      List.takeWhile_append_dropWhile pyIsSpace (l.dropWhile pyIsSpace).reverse
    have h4 := congrArg List.reverse h3
    rw [List.reverse_append, List.reverse_reverse] at h4
    rw [pyStripList]
    exact h4.symm
  rw [← h2] at hmid
  exact head?_dropWhile_false pyIsSpace l c hmid

/-- The stripped text does not end with whitespace. -/
theorem pyStripList_getLast (l : List Char) (c : Char)
    (h : (pyStripList l).getLast? = some c) : pyIsSpace c = false := by
  rw [pyStripList, List.getLast?_reverse] at h
  exact head?_dropWhile_false pyIsSpace _ c h

/-! ## Lemmas about the scheduler -/

/-- The first attempt succeeding ends the loop at once with the extracted,
normalised fields. -/
theorem fetch_certificate_data_success (fe : FetchEnv) (cfg : Cfg)
    (certificate_id nameRaw gradeRaw : String)
    (h : fe.attempts 1 = .loaded (some nameRaw) (some gradeRaw)) :
    fetch_certificate_data fe cfg certificate_id =
      .ok (attemptPrefix certificate_id cfg 1 ++
             [.navigate (certUrl certificate_id) cfg.timeout,
              .settleSleep (3/2), .pageClose, .pageClose],
           some (certificate_id, pyCollapse nameRaw, pyStrip gradeRaw)) := by
  rw [fetch_certificate_data, fetchLoop, h]

/-- When no identifier's environment can raise, the gather returns pairs in
argument order whose results carry exactly the input identifiers. -/
theorem gatherFetch_ok (fenv : String → FetchEnv) (cfg : Cfg) :
    ∀ ids : List String, (∀ i ∈ ids, (fenv i).noRaise) →
      ∃ rs, gatherFetch fenv cfg ids = .ok rs ∧
        rs.length = ids.length ∧
        rs.map (fun p => p.2.map Prod.fst) = ids.map (fun i => some i) := by
  intro ids
  induction ids with
  | nil => intro _; exact ⟨[], rfl, rfl, rfl⟩
  | cons i rest ih =>
    intro h
    obtain ⟨t, r, hfetch⟩ :=
      fetchLoop_ok_of_noRaise (fenv i) cfg i (h i (List.mem_cons_self i rest))
        (cfg.retry_count + 1) 1
    obtain ⟨rs, hrs, hlen, hmap⟩ :=
      ih (fun j hj => h j (List.mem_cons_of_mem i hj))
    obtain ⟨nn, gg, hshape⟩ :=
      fetchLoop_ok_shape (fenv i) cfg i (cfg.retry_count + 1) 1 t r hfetch
    refine ⟨(t, r) :: rs, ?_, by simp [hlen], ?_⟩
    · rw [gatherFetch, fetch_certificate_data, hfetch, hrs]
      rfl
    · simp only [List.map_cons, hmap, hshape]
      rfl

/-- A batch with well-behaved identifiers returns one result per input, in
input order, carrying the input identifiers. -/
theorem process_certificate_batch_ok (fenv : String → FetchEnv) (cfg : Cfg)
    (rate_limit : ℚ) (ids : List String)
    (h : ∀ i ∈ ids, (fenv i).noRaise) :
    ∃ t rows, process_certificate_batch fenv cfg rate_limit ids =
        .ok (t, rows) ∧
      rows.length = ids.length ∧
      rows.map (fun r => r.map Prod.fst) = ids.map (fun i => some i) := by
  obtain ⟨rs, hrs, hlen, hmap⟩ := gatherFetch_ok fenv cfg ids h
  refine ⟨paceEvents rate_limit ids.length ++ (rs.map (·.1)).flatten,
    rs.map (·.2), ?_, by simp [hlen], ?_⟩
  · rw [process_certificate_batch, hrs]
    rfl
  · rw [List.map_map, ← hmap]
    rfl

/-- Sequential chunk processing concatenates per-chunk results in order. -/
theorem processChunks_ok (fenv : String → FetchEnv) (cfg : Cfg)
    (rate_limit : ℚ) :
    ∀ bs : List (List String), (∀ b ∈ bs, ∀ i ∈ b, (fenv i).noRaise) →
      ∃ t rows, processChunks fenv cfg rate_limit bs = .ok (t, rows) ∧
        rows.length = bs.flatten.length ∧
        rows.map (fun r => r.map Prod.fst) =
          bs.flatten.map (fun i => some i) := by
  intro bs
  induction bs with
  | nil => intro _; exact ⟨[], [], rfl, rfl, rfl⟩
  | cons b rest ih =>
    intro h
    obtain ⟨t1, rows1, hb, hlen1, hmap1⟩ :=
      process_certificate_batch_ok fenv cfg rate_limit b
        (h b (List.mem_cons_self b rest))
    obtain ⟨t2, rows2, hrest, hlen2, hmap2⟩ :=
      ih (fun b' hb' => h b' (List.mem_cons_of_mem b hb'))
    refine ⟨t1 ++ t2, rows1 ++ rows2, ?_, ?_, ?_⟩
    · rw [processChunks, hb, hrest]
      rfl
    · simp [hlen1, hlen2]
    · simp [hmap1, hmap2]

/-- With a positive chunk size and enough fuel, the chunks concatenate back
to the original list. -/
theorem chunksOfAux_flatten (c : ℕ) (hc : 1 ≤ c) :
    ∀ fuel l, l.length ≤ fuel → (chunksOfAux c fuel l).flatten = l := by
  intro fuel
  induction fuel with
  | zero =>
    intro l hl
    rw [List.length_eq_zero.1 (Nat.le_zero.1 hl)]
    rfl
  | succ n ih =>
    intro l hl
    cases l with
    | nil => rfl
    | cons x xs =>
      rw [chunksOfAux, List.flatten_cons,
        ih ((x :: xs).drop c) (by simp at hl ⊢; omega),
        List.take_append_drop]

/-- The batch partition loses and reorders nothing. -/
theorem chunksOf_flatten (c : ℕ) (hc : 1 ≤ c) (l : List String) :
    (chunksOf c l).flatten = l :=
  chunksOfAux_flatten c hc l.length l (Nat.le_refl _)

/-- With a positive rate limit, the pacing loop sleeps once before every
item except the first. -/
theorem paceEvents_of_pos (r : ℚ) (hr : 0 < r) :
    ∀ n, paceEvents r n = List.replicate (n - 1) (Ev.rateSleep r) := by
  intro n
  induction n with
  | zero => rfl
  | succ m ih =>
    rw [paceEvents, List.range_succ, List.filterMap_append, ← paceEvents, ih]
    cases m with
    | zero => simp [hr]
    | succ m' =>
      have h0 : 0 < m' + 1 := Nat.succ_pos m'
      simp only [List.filterMap, if_pos (And.intro h0 hr)]
      rw [show m' + 1 + 1 - 1 = (m' + 1 - 1) + 1 from by omega,
        List.replicate_succ']

/-- With a zero rate limit, the pacing loop never sleeps. -/
theorem paceEvents_of_zero (n : ℕ) : paceEvents 0 n = [] := by
  rw [paceEvents, List.filterMap_eq_nil_iff]
  intro i _
  simp

/-- Neither environment above raises: attempts never fail page creation and
the snapshot preamble succeeds. -/
theorem envTimeout_noRaise : envTimeout.noRaise :=
  ⟨fun _ h => AttemptSpec.noConfusion h, rfl⟩

theorem envGood_noRaise : envGood.noRaise :=
  ⟨fun _ h => AttemptSpec.noConfusion h, rfl⟩

/-! ## Claim theorems -/

/-- C2: an identifier whose fetch fails (with a caught failure) on all
`maxRetries + 1` attempts yields the sentinel Result
`(id, "Error", "Error")`; its trace contains exactly one snapshot
invocation, carrying the same identifier and timeout; and the snapshot's
outcome (success or swallowed failure) does not change the Result. -/
theorem claim2_sentinel_and_single_snapshot (fe : FetchEnv) (cfg : Cfg)
    (certificate_id : String) (hs : fe.snap.raises = false)
    (hf : ∀ k, (fe.attempts k).caughtFail = true) :
    fetch_certificate_data fe cfg certificate_id =
      .ok (failTrace fe cfg certificate_id 1 (cfg.retry_count + 1),
           some (certificate_id, "Error", "Error")) ∧
    (failTrace fe cfg certificate_id 1 (cfg.retry_count + 1)).countP
        isSnapshotCall = 1 ∧
    Ev.snapshotCall certificate_id cfg.timeout ∈
      failTrace fe cfg certificate_id 1 (cfg.retry_count + 1) ∧
    (∀ i to_, Ev.snapshotCall i to_ ∈
        failTrace fe cfg certificate_id 1 (cfg.retry_count + 1) →
      i = certificate_id ∧ to_ = cfg.timeout) ∧
    (∀ snap' : SnapSpec, snap'.raises = false →
      (fetch_certificate_data ⟨fe.attempts, snap'⟩ cfg
          certificate_id).map (·.2) =
        .ok (some (certificate_id, "Error", "Error"))) := by
  refine ⟨fetchLoop_eq_of_fail fe cfg certificate_id hs hf _ 1,
    countP_snapshotCall_failTrace fe cfg certificate_id hs _ 1,
    snapshotCall_self_mem_failTrace fe cfg certificate_id hs _ 1,
    fun i to_ h => snapshotCall_mem_failTrace fe cfg certificate_id _ 1 i to_ h,
    fun snap' hs' => ?_⟩
  rw [fetch_certificate_data,
    fetchLoop_eq_of_fail ⟨fe.attempts, snap'⟩ cfg certificate_id hs' hf
      (cfg.retry_count + 1) 1]
  rfl

/-- C4 (amended): in an always-failing run there is no backoff sleep before
the first attempt, and the sleep before the retry that begins attempt `k`
(for `k = 2, …, maxRetries + 1`) lasts `baseDelay * k`, so the delays are
`2·baseDelay, 3·baseDelay, …`, strictly increasing whenever
`baseDelay > 0`. -/
theorem claim4_backoff_progression (fe : FetchEnv) (cfg : Cfg)
    (certificate_id : String) (hs : fe.snap.raises = false)
    (hf : ∀ k, (fe.attempts k).caughtFail = true) :
    (fetch_certificate_data fe cfg certificate_id).map
        (fun p => retryDelays p.1) =
      .ok ((List.range' 2 cfg.retry_count).map
        (fun k : ℕ => cfg.retry_delay * k)) ∧
    (0 < cfg.retry_delay →
      ((List.range' 2 cfg.retry_count).map
        (fun k : ℕ => cfg.retry_delay * k)).Chain' (· < ·)) := by
  constructor
  · rw [fetch_certificate_data,
      fetchLoop_eq_of_fail fe cfg certificate_id hs hf (cfg.retry_count + 1) 1]
    rw [Except.map, retryDelays_failTrace_one fe cfg certificate_id]
  · intro hd
    exact chain_lt_map_range' cfg.retry_delay hd cfg.retry_count 2

/-- C4, counterexample to the claim as stated: with `baseDelay = 1` and
`maxRetries = 2`, the slept delays are `[2, 3]`, not the claimed progression
`baseDelay, 2×baseDelay, … = [1, 2]`. -/
theorem claim4_counterexample :
    (fetch_certificate_data envTimeout ⟨15000, 2, 1⟩ "X").map
        (fun p => retryDelays p.1) = .ok [2, 3] ∧
    ([2, 3] : List ℚ) ≠ [1, 2] := by
  constructor
  · rw [fetch_certificate_data,
      fetchLoop_eq_of_fail envTimeout ⟨15000, 2, 1⟩ "X" rfl (fun _ => rfl)]
    rw [Except.map, retryDelays_failTrace_one envTimeout ⟨15000, 2, 1⟩ "X"]
    norm_num [List.range']
  · intro hcon
    have h2 : (2 : ℚ) = 1 := by
      have := List.head_eq_of_cons_eq hcon
      exact this
    norm_num at h2

/-- C5: attempts are numbered 1, 2, …; an always-failing identifier is
fetched exactly `maxRetries + 1` times, the attempts performed are exactly
those numbered `1 … maxRetries + 1`, and a retry (attempt `k + 1`) is
performed after attempt `k` exactly when `k ≤ maxRetries`. -/
theorem claim5_retry_iff_le_maxRetries (fe : FetchEnv) (cfg : Cfg)
    (certificate_id : String) (hs : fe.snap.raises = false)
    (hf : ∀ k, (fe.attempts k).caughtFail = true) :
    fetch_certificate_data fe cfg certificate_id =
      .ok (failTrace fe cfg certificate_id 1 (cfg.retry_count + 1),
           some (certificate_id, "Error", "Error")) ∧
    (failTrace fe cfg certificate_id 1 (cfg.retry_count + 1)).countP
        isAttemptStart = cfg.retry_count + 1 ∧
    (∀ k : ℕ,
      Ev.attemptStart certificate_id k ∈
          failTrace fe cfg certificate_id 1 (cfg.retry_count + 1) ↔
        1 ≤ k ∧ k ≤ cfg.retry_count + 1) ∧
    (∀ k : ℕ, 1 ≤ k →
      (Ev.attemptStart certificate_id (k + 1) ∈
          failTrace fe cfg certificate_id 1 (cfg.retry_count + 1) ↔
        k ≤ cfg.retry_count)) := by
  refine ⟨fetchLoop_eq_of_fail fe cfg certificate_id hs hf _ 1,
    countP_failTrace fe cfg certificate_id _ 1, fun k => ?_, fun k hk => ?_⟩
  · rw [attemptStart_mem_failTrace fe cfg certificate_id _ 1 certificate_id k]
    constructor
    · rintro ⟨_, h1, h2⟩; exact ⟨h1, by omega⟩
    · rintro ⟨h1, h2⟩; exact ⟨rfl, h1, by omega⟩
  · rw [attemptStart_mem_failTrace fe cfg certificate_id _ 1 certificate_id
      (k + 1)]
    constructor
    · rintro ⟨_, _, h2⟩; omega
    · intro h; exact ⟨rfl, by omega, by omega⟩

/-- C10: `fetch_certificate_data` never returns `None` despite its declared
return type — whenever it returns at all, the value is `some` 3-tuple whose
first component is exactly the `certificate_id` it was given. -/
theorem claim10_returns_triple_with_id (fe : FetchEnv) (cfg : Cfg)
    (certificate_id : String) (t : List Ev)
    (r : Option (String × String × String))
    (h : fetch_certificate_data fe cfg certificate_id = .ok (t, r)) :
    ∃ n g, r = some (certificate_id, n, g) :=
  fetchLoop_ok_shape fe cfg certificate_id (cfg.retry_count + 1) 1 t r h

/-- Witness for C10 at a concrete input: a successful first attempt. -/
theorem claim10_witness :
    fetch_certificate_data envGood ⟨15000, 3, 2⟩ "X" =
      .ok ([.attemptStart "X" 1, .pageOpen,
            .navigate "https://acegrading.com/cert/X" 15000,
            .settleSleep (3/2), .pageClose, .pageClose],
           some ("X", "a b c", "9.5")) ∧
    ∃ n g, (some ("X", "a b c", "9.5") :
        Option (String × String × String)) = some ("X", n, g) :=
  ⟨rfl, claim10_returns_triple_with_id envGood ⟨15000, 3, 2⟩ "X" _ _ rfl⟩

/-- Witness for C2: one retry, every attempt times out, snapshot succeeds:
the Result is the sentinel triple `("Error", "Error")`. -/
theorem claim2_witness :
    envTimeout.snap.raises = false ∧
    (∀ k, (envTimeout.attempts k).caughtFail = true) ∧
    fetch_certificate_data envTimeout ⟨15000, 1, 2⟩ "C" =
      .ok (failTrace envTimeout ⟨15000, 1, 2⟩ "C" 1 (1 + 1),
           some ("C", "Error", "Error")) :=
  ⟨rfl, fun _ => rfl,
   (claim2_sentinel_and_single_snapshot envTimeout ⟨15000, 1, 2⟩ "C" rfl
     (fun _ => rfl)).1⟩

/-- Witness for C4 (amended) at `baseDelay = 2`, `maxRetries = 1`. -/
theorem claim4_witness :
    (0 : ℚ) < 2 ∧
    (fetch_certificate_data envTimeout ⟨15000, 1, 2⟩ "C").map
        (fun p => retryDelays p.1) =
      .ok ((List.range' 2 1).map (fun k : ℕ => (2 : ℚ) * k)) ∧
    ((List.range' 2 1).map (fun k : ℕ => (2 : ℚ) * k)).Chain' (· < ·) := by
  have h := claim4_backoff_progression envTimeout ⟨15000, 1, 2⟩ "C" rfl
    (fun _ => rfl)
  exact ⟨by norm_num, h.1, h.2 (by norm_num)⟩

/-- Witness for C5: with `maxRetries = 1` an always-failing identifier is
attempted exactly twice. -/
theorem claim5_witness :
    (∀ k, (envTimeout.attempts k).caughtFail = true) ∧
    (failTrace envTimeout ⟨15000, 1, 2⟩ "C" 1 (1 + 1)).countP
      isAttemptStart = 1 + 1 :=
  ⟨fun _ => rfl,
   (claim5_retry_iff_le_maxRetries envTimeout ⟨15000, 1, 2⟩ "C" rfl
     (fun _ => rfl)).2.1⟩

/-- C9: on a successful extraction the Result's card-name field is the raw
heading text normalised — all whitespace runs collapsed to single spaces,
no surrounding whitespace, non-whitespace content untouched — and the grade
field is the raw bar text with surrounding whitespace trimmed (whitespace
prefix and suffix removed, nothing else, and the remainder neither starts
nor ends with whitespace). -/
theorem claim9_text_normalisation (fe : FetchEnv) (cfg : Cfg)
    (certificate_id nameRaw gradeRaw : String)
    (h : fe.attempts 1 = .loaded (some nameRaw) (some gradeRaw)) :
    (fetch_certificate_data fe cfg certificate_id).map (·.2) =
      .ok (some (certificate_id, pyCollapse nameRaw, pyStrip gradeRaw)) ∧
    Collapsed (pyCollapse nameRaw).toList ∧
    (pyCollapse nameRaw).toList.filter (fun c => !pyIsSpace c) =
      nameRaw.toList.filter (fun c => !pyIsSpace c) ∧
    (∃ pre suf,
      gradeRaw.toList = pre ++ (pyStrip gradeRaw).toList ++ suf ∧
      (∀ c ∈ pre, pyIsSpace c = true) ∧ (∀ c ∈ suf, pyIsSpace c = true)) ∧
    (∀ c, (pyStrip gradeRaw).toList.head? = some c → pyIsSpace c = false) ∧
    (∀ c, (pyStrip gradeRaw).toList.getLast? = some c →
      pyIsSpace c = false) := by
  refine ⟨?_, pyCollapse_collapsed nameRaw, filter_nonspace_pyCollapse nameRaw,
    pyStripList_decomp gradeRaw.toList,
    fun c hc => pyStripList_head gradeRaw.toList c hc,
    fun c hc => pyStripList_getLast gradeRaw.toList c hc⟩
  rw [fetch_certificate_data_success fe cfg certificate_id nameRaw gradeRaw h]
  rfl

/-- Witness for C9 on concrete raw texts. -/
theorem claim9_witness :
    envGood.attempts 1 = .loaded (some "  a  b\tc ") (some " 9.5 ") ∧
    (fetch_certificate_data envGood ⟨15000, 3, 2⟩ "X").map (·.2) =
      .ok (some ("X", pyCollapse "  a  b\tc ", pyStrip " 9.5 ")) ∧
    pyCollapse "  a  b\tc " = "a b c" ∧ pyStrip " 9.5 " = "9.5" :=
  ⟨rfl,
   (claim9_text_normalisation envGood ⟨15000, 3, 2⟩ "X" "  a  b\tc " " 9.5 "
     rfl).1,
   rfl, rfl⟩

/-- C3 (amended): every failure raised inside the per-attempt `try` block
is caught locally (becoming a retry or the sentinel Result) and every
failure inside the snapshot's `try` block is logged and swallowed, so
whenever page acquisition succeeds on every attempt and the snapshot
preamble (page acquisition and debug-directory creation) succeeds, the
worker returns a Result and the snapshot returns normally.  However, a
failure in `create_stealth_page` — called inside the attempt loop but
before the `try` — or in `os.makedirs` — before the snapshot's `try` —
escapes to the caller. -/
theorem claim3_no_escape_amended (fe : FetchEnv) (cfg : Cfg)
    (certificate_id : String) (h : fe.noRaise) :
    (∃ t r, fetch_certificate_data fe cfg certificate_id = .ok (t, r)) ∧
    (∀ (snap : SnapSpec) (i : String) (to_ : ℤ), snap.raises = false →
      ∃ evs b, save_debug_snapshot snap i to_ = .ok (evs, b)) :=
  ⟨fetchLoop_ok_of_noRaise fe cfg certificate_id h (cfg.retry_count + 1) 1,
   fun snap i to_ hs =>
     ⟨snapEvents snap i to_, snap = .bodyOk,
      save_debug_snapshot_eq_of_noRaise snap i to_ hs⟩⟩

/-- C3, counterexample to the claim as stated: a failure while opening the
fresh page inside the first fetch attempt escapes
`fetch_certificate_data` (no Result is returned), and a failure in
`os.makedirs` escapes `save_debug_snapshot` to its caller. -/
theorem claim3_counterexample :
    fetch_certificate_data envPageCrash ⟨15000, 3, 2⟩ "X" =
      .error (.exc "new_page") ∧
    save_debug_snapshot .makedirsRaises "X" 15000 =
      .error (.exc "makedirs") :=
  ⟨rfl, rfl⟩

/-- Witness for C3 (amended) on a concrete non-raising environment. -/
theorem claim3_witness :
    envTimeout.noRaise ∧
    (∃ t r, fetch_certificate_data envTimeout ⟨15000, 0, 1⟩ "W" =
      .ok (t, r)) :=
  ⟨envTimeout_noRaise,
   (claim3_no_escape_amended envTimeout ⟨15000, 0, 1⟩ "W"
     envTimeout_noRaise).1⟩

/-- C1: for any non-empty identifier list and any window size ≥ 1, when no
fetch raises, the aggregated output has exactly one Result per input
identifier, in the same order — the sequence of Result identifiers is the
input list itself. -/
theorem claim1_output_matches_input (fenv : String → FetchEnv) (cfg : Cfg)
    (rate_limit : ℚ) (concurrency : ℕ) (ids : List String)
    (hne : ids ≠ []) (hc : 1 ≤ concurrency)
    (hnr : ∀ i ∈ ids, (fenv i).noRaise) :
    ∃ t rows,
      processAll fenv cfg rate_limit concurrency ids = .ok (t, rows) ∧
      rows.length = ids.length ∧
      rows.map (fun r => r.map Prod.fst) = ids.map (fun i => some i) := by
  have hflat := chunksOf_flatten concurrency hc ids
  obtain ⟨t, rows, hp, hlen, hmap⟩ :=
    processChunks_ok fenv cfg rate_limit (chunksOf concurrency ids)
      (fun b hb i hi => hnr i (by
        rw [← hflat]; exact List.mem_flatten.2 ⟨b, hb, hi⟩))
  rw [hflat] at hlen hmap
  exact ⟨t, rows, hp, hlen, hmap⟩

/-- Witness for C1: three identifiers, window size 2. -/
theorem claim1_witness :
    (["a", "b", "c"] : List String) ≠ [] ∧ 1 ≤ 2 ∧
    (∃ t rows,
      processAll (fun _ => envGood) ⟨15000, 3, 2⟩ 1 2 ["a", "b", "c"] =
        .ok (t, rows) ∧
      rows.length = (["a", "b", "c"] : List String).length ∧
      rows.map (fun r => r.map Prod.fst) =
        (["a", "b", "c"] : List String).map (fun i => some i)) :=
  ⟨by simp, by omega,
   claim1_output_matches_input (fun _ => envGood) ⟨15000, 3, 2⟩ 1 2
     ["a", "b", "c"] (by simp) (by omega) (fun i _ => envGood_noRaise)⟩

/-- C6: within a window the rate limiter sleeps `rateLimitSeconds` exactly
once before each item of local index > 0 and never before the item at index
0 (a one-item window has no pacing sleep at all), and a configured rate
limit of 0 produces no dispatch delay between any items. -/
theorem claim6_rate_limiter_pacing (rate_limit : ℚ) (n : ℕ) :
    (0 < rate_limit →
      paceEvents rate_limit n =
        List.replicate (n - 1) (Ev.rateSleep rate_limit)) ∧
    paceEvents rate_limit 1 = [] ∧
    (rate_limit = 0 → paceEvents rate_limit n = []) := by
  refine ⟨fun h => paceEvents_of_pos rate_limit h n, ?_,
    fun h => by rw [h]; exact paceEvents_of_zero n⟩
  simp [paceEvents, List.range_succ]

/-- Witness for C6 at rate 1, three items: two pacing sleeps. -/
theorem claim6_witness :
    (0 : ℚ) < 1 ∧
    paceEvents 1 3 = List.replicate 2 (Ev.rateSleep 1) :=
  ⟨by norm_num, (claim6_rate_limiter_pacing 1 3).1 (by norm_num)⟩

/-- C7: a missing input file, an unreadable input file, or an input with no
usable identifier makes the process exit with a non-zero status, perform no
fetch work (empty event trace) and write no report. -/
theorem claim7_config_error_exits (env : MainEnv) (a : Args)
    (h : env.inputExists = false ∨ env.readOk = false ∨
      usableIds env.rawLines = []) :
    (runProcess env a).exitCode ≠ 0 ∧
    (runProcess env a).events = [] ∧
    (runProcess env a).report = none := by
  by_cases h1 : env.inputExists = false
  · simp [runProcess, h1]
  · by_cases h2 : env.readOk = false
    · simp [runProcess, h1, h2]
    · rcases h with h | h | h
      · exact absurd h h1
      · exact absurd h h2
      · simp [runProcess, h1, h2, h]

/-- Witness for C7: missing input file. -/
theorem claim7_witness :
    (envMissingInput.inputExists = false ∨ envMissingInput.readOk = false ∨
      usableIds envMissingInput.rawLines = []) ∧
    (runProcess envMissingInput args0).exitCode ≠ 0 ∧
    (runProcess envMissingInput args0).events = [] ∧
    (runProcess envMissingInput args0).report = none :=
  ⟨Or.inl rfl, claim7_config_error_exits envMissingInput args0 (Or.inl rfl)⟩

/-- C8: the process exits 0 on successful completion (report written) and
on user interruption (no report written, partial results discarded), and
exits 1 on a configuration error, on an exception escaping the batch run,
or on a failing report write (in which case no usable report exists). -/
theorem claim8_exit_codes (env : MainEnv) (a : Args) :
    ((env.inputExists = false ∨ env.readOk = false ∨
        usableIds env.rawLines = []) →
      (runProcess env a).exitCode = 1 ∧ (runProcess env a).report = none) ∧
    (env.inputExists = true → env.readOk = true →
      usableIds env.rawLines ≠ [] →
      ((env.interrupted = true →
        (runProcess env a).exitCode = 0 ∧
          (runProcess env a).report = none) ∧
      (env.interrupted = false →
        (∀ e, processAll env.fenv a.cfg a.rateLimit a.concurrency
            (usableIds env.rawLines) = .error e →
          (runProcess env a).exitCode = 1 ∧
            (runProcess env a).report = none) ∧
        (∀ t rows, processAll env.fenv a.cfg a.rateLimit a.concurrency
            (usableIds env.rawLines) = .ok (t, rows) →
          (env.writeOk = true →
            (runProcess env a).exitCode = 0 ∧
              (runProcess env a).report = some rows) ∧
          (env.writeOk = false →
            (runProcess env a).exitCode = 1 ∧
              (runProcess env a).report = none))))) := by
  constructor
  · intro h
    by_cases h1 : env.inputExists = false
    · simp [runProcess, h1]
    · by_cases h2 : env.readOk = false
      · simp [runProcess, h1, h2]
      · rcases h with h | h | h
        · exact absurd h h1
        · exact absurd h h2
        · simp [runProcess, h1, h2, h]
  · intro h1 h2 h3
    constructor
    · intro hint
      simp [runProcess, h1, h2, h3, hint]
    · intro hint
      constructor
      · intro e herr
        simp [runProcess, h1, h2, h3, hint, herr]
      · intro t rows hok
        constructor
        · intro hw
          simp [runProcess, h1, h2, h3, hint, hok, hw]
        · intro hw
          simp [runProcess, h1, h2, h3, hint, hok, hw]

/-- Witness for C8: user interruption exits 0 with no report. -/
theorem claim8_witness :
    envInterrupted.inputExists = true ∧
    usableIds envInterrupted.rawLines ≠ [] ∧
    envInterrupted.interrupted = true ∧
    (runProcess envInterrupted args0).exitCode = 0 ∧
    (runProcess envInterrupted args0).report = none :=
  ⟨rfl, by decide, rfl,
   ((claim8_exit_codes envInterrupted args0).2 rfl rfl (by decide)).1 rfl⟩

end CardGrabber
